import Mathlib

/-!
Verification of the LaunchRadar changelog-scraping pipeline.

This file shallowly embeds the pure decision logic of the repository:
the incremental-refresh controller (`shouldSkipScraping`, `filterNewUpdates`
and the merge step of `ChangelogScraper.scrapeCompany` in
`src/services/changelog-scraper.ts`), the heuristic classifier
(`classifyUpdateType`, `parseDate`), the bounded scroll loop
(`loadMoreContent`), the persistence layer (`DataStore.store`,
`DataStore.storeFailure` in `src/services/data-store.ts`), the crawl
orchestrator (`ChangelogScraper.scrapeAllChangelogs` and the API route
that stores its results), and the batch entry point (`daily-scraper.js`).

Host primitives (the headless browser, the JavaScript `Date` parser,
the file system) are modelled as explicit parameters: page heights as a
sequence `Nat → Nat`, the `new Date(...)` parser as an oracle
`String → Option ISODate` (`none` models an Invalid Date, i.e. the
`isNaN(parsed.getTime())` guard firing), and the store as a map
`String → Option StoredData`. TypeScript `Set` membership over trimmed
titles is list membership with string equality; optional numeric fields
not used by any decision (confidence, version) are omitted.
-/

/-- JavaScript `String.prototype.trim`, over the character list (the built-in
`String.trim` is position-based and does not reduce in the kernel). -/
def trimStr (s : String) : String :=
  String.mk (((s.data.dropWhile Char.isWhitespace).reverse.dropWhile Char.isWhitespace).reverse)

/-- JavaScript `String.prototype.toLowerCase`, over the character list. -/
def toLowerStr (s : String) : String :=
  String.mk (s.data.map Char.toLower)

/-- The update type enumeration of `ScrapedUpdate.type`. -/
inductive UpdateType where
  | feature
  | pricing
  | bugfix
  | improvement
  | breaking
  | security
  | performance
deriving DecidableEq, Repr

/-- One scraped changelog entry (`ScrapedUpdate` in changelog-scraper.ts);
fields actually consumed by the refresh and merge logic. -/
structure ScrapedUpdate where
  title : String
  date : String
  type : UpdateType
  description : String
  tags : List String
deriving DecidableEq, Repr

/-- The per-source crawl result (`ScrapedData` in changelog-scraper.ts). -/
structure ScrapedData where
  competitor : String
  updates : List ScrapedUpdate
  lastScraped : String
deriving DecidableEq, Repr

/-- `BaseCompanyScraper.shouldSkipScraping` (changelog-scraper.ts lines 78-104):
no existing data forces a full scrape; an empty probe result returns `true`
(skip); otherwise the most recent existing entry and the most recent probe
entry are compared on trimmed title and exact date. -/
def shouldSkipScraping (existingUpdates newUpdates : List ScrapedUpdate) : Bool :=
  match existingUpdates, newUpdates with
  | [], _ => false
  | _ :: _, [] => true
  | e :: _, n :: _ => (trimStr e.title == trimStr n.title) && (e.date == n.date)

/-- `BaseCompanyScraper.filterNewUpdates` (changelog-scraper.ts lines 107-117):
drop every new update whose trimmed title already occurs among the trimmed
titles of the existing updates. -/
def filterNewUpdates (existingUpdates newUpdates : List ScrapedUpdate) : List ScrapedUpdate :=
  match existingUpdates with
  | [] => newUpdates
  | _ :: _ =>
    let existingTitles := existingUpdates.map (fun u => trimStr u.title)
    newUpdates.filter (fun u => !(existingTitles.contains (trimStr u.title)))

/-- The merge step of `ChangelogScraper.scrapeCompany` (changelog-scraper.ts
lines 1639-1648): surviving new updates are prepended to the existing ones. -/
def mergeUpdates (existingUpdates newUpdates : List ScrapedUpdate) : List ScrapedUpdate :=
  filterNewUpdates existingUpdates newUpdates ++ existingUpdates

/-- Substring test on character lists: JavaScript `String.prototype.includes`. -/
def isInfixOfCL (sub : List Char) : List Char → Bool
  | [] => sub.isEmpty
  | c :: rest => sub.isPrefixOf (c :: rest) || isInfixOfCL sub rest

/-- `content.includes(kw)` for strings. -/
def includesStr (s kw : String) : Bool := isInfixOfCL kw.data s.data

/-- `BaseCompanyScraper.classifyUpdateType` (changelog-scraper.ts lines
310-321): lowercase the concatenated title and description, then test the
keyword groups in the fixed source order, defaulting to `improvement`. -/
def classifyUpdateType (title description : String) : UpdateType :=
  let content := toLowerStr (title ++ " " ++ description)
  if includesStr content "breaking" || includesStr content "deprecated" then .breaking
  else if includesStr content "security" || includesStr content "vulnerability" then .security
  else if includesStr content "performance" || includesStr content "speed" ||
      includesStr content "faster" then .performance
  else if includesStr content "bug" || includesStr content "fix" ||
      includesStr content "issue" then .bugfix
  else if includesStr content "pricing" || includesStr content "plan" ||
      includesStr content "cost" then .pricing
  else if includesStr content "new" || includesStr content "add" ||
      includesStr content "launch" then .feature
  else .improvement

/-- First-match-wins walk over priority-ordered keyword groups, written from
the words of the specification (section 4.2) for the refinement claim C4. -/
def firstMatching (content : String) : List (List String × UpdateType) → UpdateType
  | [] => UpdateType.improvement
  | (kws, ty) :: rest =>
    if kws.any (fun kw => includesStr content kw) then ty else firstMatching content rest

/-- The priority-ordered keyword groups of specification section 4.2. -/
def specKeywordGroups : List (List String × UpdateType) :=
  [ (["breaking", "deprecated"], UpdateType.breaking),
    (["security", "vulnerability"], UpdateType.security),
    (["performance", "speed", "faster"], UpdateType.performance),
    (["bug", "fix", "issue"], UpdateType.bugfix),
    (["pricing", "plan", "cost"], UpdateType.pricing),
    (["new", "add", "launch"], UpdateType.feature) ]

/-- Classifier written from the words of the specification (section 4.2):
check the lowercased text against ordered keyword groups, first match wins. -/
def classifyTypeSpec (title description : String) : UpdateType :=
  firstMatching (toLowerStr (title ++ " " ++ description)) specKeywordGroups


/-- `\d{4}-\d{2}-\d{2}` anchored at both ends (the ISO shape of
`BaseCompanyScraper.parseDate`, changelog-scraper.ts line 284). -/
def reIso : List Char → Bool
  | [y1, y2, y3, y4, '-', m1, m2, '-', d1, d2] =>
    y1.isDigit && y2.isDigit && y3.isDigit && y4.isDigit &&
    m1.isDigit && m2.isDigit && d1.isDigit && d2.isDigit
  | _ => false

/-- `\d{1,2}/\d{1,2}/\d{4}` anchored at both ends (the US shape,
changelog-scraper.ts line 286). Maximal digit runs delimited by the slashes
coincide with the backtracking regex semantics. -/
def reUS (l : List Char) : Bool :=
  let s1 := l.span Char.isDigit
  match s1.2 with
  | '/' :: r2 =>
    let s2 := r2.span Char.isDigit
    match s2.2 with
    | '/' :: r4 =>
      let s3 := r4.span Char.isDigit
      decide (1 ≤ s1.1.length) && decide (s1.1.length ≤ 2) &&
      decide (1 ≤ s2.1.length) && decide (s2.1.length ≤ 2) &&
      decide (s3.1.length = 4) && s3.2.isEmpty
    | _ => false
  | _ => false

/-- `[A-Za-z]+ \d{1,2}, \d{4}` anchored at both ends (the "Month Day, Year"
shape, changelog-scraper.ts line 288). -/
def reMonthDayYear (l : List Char) : Bool :=
  let s1 := l.span Char.isAlpha
  match s1.2 with
  | ' ' :: r2 =>
    let s2 := r2.span Char.isDigit
    match s2.2 with
    | ',' :: ' ' :: r4 =>
      let s3 := r4.span Char.isDigit
      decide (1 ≤ s1.1.length) &&
      decide (1 ≤ s2.1.length) && decide (s2.1.length ≤ 2) &&
      decide (s3.1.length = 4) && s3.2.isEmpty
    | _ => false
  | _ => false

/-- `/ago$/i` (the relative-date shape, changelog-scraper.ts line 290). -/
def reAgo (l : List Char) : Bool :=
  match l.reverse with
  | o :: g :: a :: _ => o.toLower == 'o' && g.toLower == 'g' && a.toLower == 'a'
  | _ => false

/-- One of the four date shapes of `BaseCompanyScraper.parseDate` matches. -/
def matchesKnownShape (s : String) : Bool :=
  reIso s.data || reUS s.data || reMonthDayYear s.data || reAgo s.data

/-- Day count of a month in the proleptic Gregorian calendar. -/
def daysInMonth (year month : Nat) : Nat :=
  if month = 2 then
    if year % 4 = 0 && (year % 100 ≠ 0 || year % 400 = 0) then 29 else 28
  else if month = 4 || month = 6 || month = 9 || month = 11 then 30
  else 31

/-- Numeric value of a decimal digit character. -/
def digitVal (c : Char) : Nat := c.toNat - 48

/-- A valid ISO `YYYY-MM-DD` date string: the ISO shape with a real calendar
month and day. -/
def isValidISODate (s : String) : Bool :=
  match s.data with
  | [y1, y2, y3, y4, '-', m1, m2, '-', d1, d2] =>
    y1.isDigit && y2.isDigit && y3.isDigit && y4.isDigit &&
    m1.isDigit && m2.isDigit && d1.isDigit && d2.isDigit &&
    (let y := ((digitVal y1 * 10 + digitVal y2) * 10 + digitVal y3) * 10 + digitVal y4
     let m := digitVal m1 * 10 + digitVal m2
     let d := digitVal d1 * 10 + digitVal d2
     decide (1 ≤ m) && decide (m ≤ 12) && decide (1 ≤ d) && decide (d ≤ daysInMonth y m))
  | _ => false

/-- A string carrying a proof that it is a valid ISO date. Produced by the
host path that renders `Date.toISOString()` truncated at `T`, which only renders
valid dates. -/
def ISODate : Type := { s : String // isValidISODate s = true }

/-- `BaseCompanyScraper.parseDate` (changelog-scraper.ts lines 274-308).
`today` is the current date of the crawl (`new Date()` rendered as ISO) and
`jsParse` is the host `new Date(string)` parser, returning `none` exactly
when the result is an Invalid Date (the `isNaN(parsed.getTime())` guard).
The source loops over the four shape regexes and, on a shape match, attempts
the host parse of the same cleaned string each time, so a single attempt
after the disjunction of the shapes is an exact rendering. -/
def parseDate (today : ISODate) (jsParse : String → Option ISODate)
    (dateStr : String) : String :=
  if dateStr.data.isEmpty then today.val
  else
    let cleanDate := trimStr dateStr
    if matchesKnownShape cleanDate then
      match jsParse cleanDate with
      | some d => d.val
      | none => today.val
    else today.val

/-- The scroll phase of `BaseCompanyScraper.loadMoreContent`
(changelog-scraper.ts lines 234-266). `h t` is the page height measured by
the t-th `document.body.scrollHeight` read (`h 0` is the initial read at
line 236). The `while attempts < 25` loop is rendered as structural
recursion on the remaining fuel `25 - attempts`; the state is the attempt
counter, the last measured height and the consecutive no-change counter. -/
def scrollLoopAux (h : Nat → Nat) : Nat → Nat → Nat → Nat → Nat
  | 0, attempts, _, _ => attempts
  | fuel + 1, attempts, current, noChange =>
    let next := h (attempts + 1)
    if current == next then
      if noChange + 1 ≥ 3 then attempts + 1
      else scrollLoopAux h fuel (attempts + 1) next (noChange + 1)
    else scrollLoopAux h fuel (attempts + 1) next 0

/-- Number of scroll attempts performed by `loadMoreContent` over the height
sequence `h`. -/
def scrollAttempts (h : Nat → Nat) : Nat :=
  scrollLoopAux h 25 0 (h 0) 0

/-- The persisted per-source record (`StoredData` in data-store.ts). -/
structure StoredData where
  competitor : String
  updates : List ScrapedUpdate
  lastScraped : String
  success : Bool
deriving DecidableEq, Repr

/-- The file-system store of `DataStore`: one JSON document per source id. -/
def Store : Type := String → Option StoredData

/-- `DataStore.store` (data-store.ts lines 29-44): overwrite the document of
`competitor` with its updates, the current timestamp and `success := true`. -/
def storePut (st : Store) (competitor : String) (d : ScrapedData) (now : String) : Store :=
  fun k => if k = competitor then some ⟨competitor, d.updates, now, true⟩ else st k

/-- `DataStore.storeFailure` (data-store.ts lines 95-110): overwrite the
document of `competitor` with an empty update list, the current timestamp
and `success := false`. -/
def storeFailure (st : Store) (competitor : String) (now : String) : Store :=
  fun k => if k = competitor then some ⟨competitor, [], now, false⟩ else st k

/-- The ten sources registered by the `ChangelogScraper` constructor
(changelog-scraper.ts lines 1580-1592). -/
def registeredCompanies : List String :=
  ["stripe", "vercel", "supabase", "figma", "caldotcom",
   "linear", "notion", "convertkit", "gumroad", "carrd"]

/-- Observable side effects of one `scrapeCompany` run, in program order. -/
inductive ScrapeEffect where
  | initBrowser
  | loadExisting
  | createPage
  | quickProbe
  | closePage
  | fullScrape
  | closeBrowser
deriving DecidableEq, Repr

/-- The environment one `scrapeCompany` run observes: the stored updates
read by `loadExistingData`, the probe result of `quickScrapeCheck`, the
outcome of the per-company `scrape()` full crawl, and the clock. -/
structure ScrapeEnv where
  existingUpdates : List ScrapedUpdate
  quickUpdates : List ScrapedUpdate
  fullResult : Except String ScrapedData
  now : String

/-- `ChangelogScraper.scrapeCompany` (changelog-scraper.ts lines 1594-1654)
paired with its effect trace. An unregistered company throws before the
`try` block, so before any effect. Otherwise: init, read existing data;
when existing data is present, open a page, quick probe, close the page,
and return the existing updates with a fresh `lastScraped` when
`shouldSkipScraping` says skip; else run the full crawl (whose failure
propagates past the `finally` that closes the browser) and, when existing
data is present, prepend the filtered new updates. Page navigation is
modelled as succeeding; `quickScrapeCheck` never throws (its body catches). -/
def scrapeCompany (env : ScrapeEnv) (companyName : String) :
    Except String ScrapedData × List ScrapeEffect :=
  if registeredCompanies.contains companyName then
    let existingUpdates := env.existingUpdates
    let probeTrace :=
      if existingUpdates.isEmpty then ([] : List ScrapeEffect)
      else [ScrapeEffect.createPage, ScrapeEffect.quickProbe, ScrapeEffect.closePage]
    let baseTrace := ScrapeEffect.initBrowser :: ScrapeEffect.loadExisting :: probeTrace
    if !existingUpdates.isEmpty && shouldSkipScraping existingUpdates env.quickUpdates then
      (Except.ok ⟨companyName, existingUpdates, env.now⟩,
       baseTrace ++ [ScrapeEffect.closeBrowser])
    else
      match env.fullResult with
      | Except.error e =>
        (Except.error e, baseTrace ++ [ScrapeEffect.fullScrape, ScrapeEffect.closeBrowser])
      | Except.ok fullData =>
        if existingUpdates.isEmpty then
          (Except.ok fullData,
           baseTrace ++ [ScrapeEffect.fullScrape, ScrapeEffect.closeBrowser])
        else
          (Except.ok ⟨fullData.competitor, mergeUpdates existingUpdates fullData.updates,
                      fullData.lastScraped⟩,
           baseTrace ++ [ScrapeEffect.fullScrape, ScrapeEffect.closeBrowser])
  else
    (Except.error ("No scraper found for company: " ++ companyName), [])

/-- `ChangelogScraper.scrapeAllChangelogs` (changelog-scraper.ts lines
1656-1672) over the per-company outcomes: each company is attempted in
order, successes are pushed, a failure is logged and the loop continues. -/
def scrapeAllChangelogs (outcomes : List (String × Except String ScrapedData)) :
    List ScrapedData :=
  outcomes.filterMap (fun p => match p.2 with
    | Except.ok d => some d
    | Except.error _ => none)

/-- The all-sources branch of the scrape API route (`GET` in the route
handler): run `scrapeAllChangelogs`, then store each returned result under
its own competitor key. -/
def handleScrapeAll (outcomes : List (String × Except String ScrapedData))
    (st : Store) (now : String) : List ScrapedData × Store :=
  let result := scrapeAllChangelogs outcomes
  (result, result.foldl (fun s d => storePut s d.competitor d now) st)

/-- Sample existing entry, used by concrete witnesses. -/
def sampleUpdate : ScrapedUpdate :=
  ⟨"Launch v2", "2024-01-01", UpdateType.feature, "Launch v2", []⟩

/-- Sample new entry, used by concrete witnesses. -/
def sampleUpdateB : ScrapedUpdate :=
  ⟨"New dashboard", "2024-02-01", UpdateType.feature, "New dashboard", []⟩

/-- C1 counterexample: with one existing stored update and an empty quick
probe result, `shouldSkipScraping` returns `true` (skip), not `false`
(proceed) as the claim states. -/
theorem C1_counterexample : shouldSkipScraping [sampleUpdate] [] = true := by
  decide

/-- C1 (amended): for every non-empty existing record, an empty quick probe
result makes `shouldSkipScraping` return `true`: the controller treats an
empty probe as "no new updates" and skips the full crawl. -/
theorem C1_empty_probe_skips (E : List ScrapedUpdate) (h : E ≠ []) :
    shouldSkipScraping E [] = true := by
  cases E with
  | nil => exact absurd rfl h
  | cons e es => rfl

/-- C1 witness: the amended statement at a concrete one-element record. -/
theorem C1_empty_probe_skips_witness :
    [sampleUpdate] ≠ ([] : List ScrapedUpdate) ∧
      shouldSkipScraping [sampleUpdate] [] = true :=
  ⟨by decide, C1_empty_probe_skips [sampleUpdate] (by decide)⟩

/-- C9: whatever was stored before, `storeFailure` overwrites the record of
the source with an empty update list, `success := false` and a fresh
`lastScraped`, so previously collected updates for that source are lost. -/
theorem C9_storeFailure_overwrites (st : Store) (competitor now : String) :
    storeFailure st competitor now competitor =
      some ⟨competitor, [], now, false⟩ := by
  simp [storeFailure]

/-- C10: an unregistered company name makes `scrapeCompany` throw before any
browser initialization, probe, crawl or store effect: the result is the
error and the effect trace is empty. -/
theorem C10_unregistered_company (env : ScrapeEnv) (companyName : String)
    (h : companyName ∉ registeredCompanies) :
    scrapeCompany env companyName =
      (Except.error ("No scraper found for company: " ++ companyName), []) := by
  simp [scrapeCompany, h]

/-- C10 witness: the unregistered company "acme". -/
theorem C10_unregistered_company_witness :
    "acme" ∉ registeredCompanies ∧
      scrapeCompany ⟨[], [], Except.error "netfail", "t0"⟩ "acme" =
        (Except.error ("No scraper found for company: " ++ "acme"), []) :=
  ⟨by decide, C10_unregistered_company ⟨[], [], Except.error "netfail", "t0"⟩ "acme" (by decide)⟩

/-- C3: when the existing record and the quick probe are both non-empty and
their first entries agree on trimmed title and on date, the refresh is
skipped: the returned record keeps the existing updates unchanged and only
`lastScraped` is set to the current time. -/
theorem C3_skip_path_idempotent (env : ScrapeEnv) (companyName : String)
    (hreg : companyName ∈ registeredCompanies)
    (e q : ScrapedUpdate) (es qs : List ScrapedUpdate)
    (hE : env.existingUpdates = e :: es) (hQ : env.quickUpdates = q :: qs)
    (htitle : trimStr e.title = trimStr q.title) (hdate : e.date = q.date) :
    (scrapeCompany env companyName).1 =
      Except.ok ⟨companyName, env.existingUpdates, env.now⟩ := by
  simp [scrapeCompany, hreg, hE, hQ, shouldSkipScraping, htitle, hdate]

/-- C3 witness: a concrete environment whose probe head equals the stored
head on trimmed title and date. -/
theorem C3_skip_path_idempotent_witness :
    (scrapeCompany ⟨[sampleUpdate], [sampleUpdate], Except.error "unused", "t1"⟩ "stripe").1 =
      Except.ok ⟨"stripe", [sampleUpdate], "t1"⟩ :=
  C3_skip_path_idempotent ⟨[sampleUpdate], [sampleUpdate], Except.error "unused", "t1"⟩
    "stripe" (by decide) sampleUpdate sampleUpdate [] [] rfl rfl rfl rfl

/-- C4: `classifyUpdateType` agrees everywhere with the first-match-wins
walk over the priority-ordered keyword groups of the specification
(breaking/deprecated, then security/vulnerability, then
performance/speed/faster, then bug/fix/issue, then pricing/plan/cost, then
new/add/launch, defaulting to improvement); in particular text containing
both "fix" and "breaking" classifies as breaking and text containing only
"faster" classifies as performance, case-insensitively. -/
theorem C4_classification_priority :
    (∀ title description,
      classifyUpdateType title description = classifyTypeSpec title description) ∧
    classifyUpdateType "Breaking fix" "" = UpdateType.breaking ∧
    classifyUpdateType "faster" "" = UpdateType.performance ∧
    classifyUpdateType "FASTER" "" = UpdateType.performance := by
  refine ⟨?_, by decide, by decide, by decide⟩
  intro title description
  simp only [classifyUpdateType, classifyTypeSpec, specKeywordGroups, firstMatching,
    List.any_cons, List.any_nil, Bool.or_false, Bool.or_assoc]

/-- C2 counterexample: a full crawl that yields the same fresh title twice
produces a merged result with two entries of equal trimmed title, refuting
the no-duplicates part of the claim. -/
theorem C2_counterexample :
    ¬ (((mergeUpdates [sampleUpdate] [sampleUpdateB, sampleUpdateB]).map
        (fun u => trimStr u.title)).Nodup) := by
  decide

/-- C2 (amended): the merged result is exactly the entries of the crawl
whose trimmed title is not among the trimmed titles of the existing record,
in their original order, prepended ahead of all existing entries; every
surviving new entry differs in trimmed title from every existing entry; and
when the trimmed titles within the existing record and within the crawl are
each duplicate-free, the merged result has no two entries with the same
trimmed title. -/
theorem C2_merge_dedup (E N : List ScrapedUpdate) :
    mergeUpdates E N =
      N.filter (fun u => !((E.map (fun v => trimStr v.title)).contains (trimStr u.title))) ++ E
    ∧ (∀ u ∈ filterNewUpdates E N, ∀ v ∈ E, trimStr u.title ≠ trimStr v.title)
    ∧ ((E.map (fun v => trimStr v.title)).Nodup →
        (N.map (fun v => trimStr v.title)).Nodup →
        ((mergeUpdates E N).map (fun u => trimStr u.title)).Nodup) := by
  have hfilter : filterNewUpdates E N =
      N.filter (fun u => !((E.map (fun v => trimStr v.title)).contains (trimStr u.title))) := by
    cases E with
    | nil => simp [filterNewUpdates]
    | cons e es => rfl
  have hmem : ∀ u ∈ filterNewUpdates E N, ∀ v ∈ E, trimStr u.title ≠ trimStr v.title := by
    intro u hu v hv heq
    rw [hfilter, List.mem_filter] at hu
    have hnot : trimStr u.title ∉ E.map (fun v => trimStr v.title) := by
      simpa using hu.2
    exact hnot (heq ▸ List.mem_map_of_mem _ hv)
  refine ⟨by rw [mergeUpdates, hfilter], hmem, ?_⟩
  intro hE hN
  rw [mergeUpdates, List.map_append]
  refine List.Nodup.append ?_ hE ?_
  · exact hN.sublist (List.Sublist.map _ (by rw [hfilter]; exact List.filter_sublist N))
  · intro a ha hb
    rcases List.mem_map.mp ha with ⟨u, hu, rfl⟩
    rcases List.mem_map.mp hb with ⟨v, hv, hvv⟩
    exact hmem u hu v hv hvv.symm

/-- C2 witness: the amended statement at the scenario of specification
section 8 (a crawl returning the already-stored title plus a fresh one),
with both no-internal-duplicate hypotheses discharged concretely. -/
theorem C2_merge_dedup_witness :
    ((mergeUpdates [sampleUpdate] [sampleUpdate, sampleUpdateB]).map
        (fun u => trimStr u.title)).Nodup :=
  (C2_merge_dedup [sampleUpdate] [sampleUpdate, sampleUpdateB]).2.2 (by decide) (by decide)

/-- A concrete valid ISO date, used by witnesses. -/
def sampleISODate : ISODate := ⟨"2024-01-01", by decide⟩

/-- C6: `parseDate` is total and never raises; its result is always a valid
ISO date string, and on an empty or shape-rejected input it is exactly the
current date of the crawl. -/
theorem C6_date_fallback (today : ISODate) (jsParse : String → Option ISODate)
    (s : String) :
    isValidISODate (parseDate today jsParse s) = true ∧
    ((s = "" ∨ matchesKnownShape (trimStr s) = false) →
      parseDate today jsParse s = today.val) := by
  constructor
  · unfold parseDate
    dsimp only
    split
    · exact today.property
    · split
      · split
        · next d hd => exact d.property
        · exact today.property
      · exact today.property
  · intro hyp
    rcases hyp with hyp | hyp
    · subst hyp
      rfl
    · unfold parseDate
      dsimp only
      split
      · rfl
      · simp [hyp]

/-- C6 witness: the shape-rejected input "not a date" with an inert host
parser yields exactly the current date. -/
theorem C6_date_fallback_witness :
    parseDate sampleISODate (fun _ => none) "not a date" = sampleISODate.val :=
  (C6_date_fallback sampleISODate (fun _ => none) "not a date").2 (Or.inr (by decide))

/-- The scroll loop performs at most `fuel` further iterations. -/
theorem scrollLoopAux_le (h : Nat → Nat) (fuel : Nat) :
    ∀ attempts current noChange,
      scrollLoopAux h fuel attempts current noChange ≤ attempts + fuel := by
  induction fuel with
  | zero => intro attempts current noChange; simp [scrollLoopAux]
  | succ n ih =>
    intro attempts current noChange
    unfold scrollLoopAux
    dsimp only
    split
    · split
      · omega
      · exact le_trans (ih _ _ _) (by omega)
    · exact le_trans (ih _ _ _) (by omega)

/-- Once the height sequence has stabilized, the scroll loop stops within
`3 - noChange` further iterations. -/
theorem scrollLoopAux_stable (h : Nat → Nat) (k : Nat)
    (hs : ∀ t, k ≤ t → h (t + 1) = h t) :
    ∀ fuel a nc, k ≤ a → nc ≤ 2 →
      scrollLoopAux h fuel a (h a) nc ≤ a + (3 - nc) := by
  intro fuel
  induction fuel with
  | zero =>
    intro a nc hka hnc
    simp [scrollLoopAux]
  | succ n ih =>
    intro a nc hka hnc
    unfold scrollLoopAux
    dsimp only
    rw [hs a hka]
    simp only [beq_self_eq_true, if_true]
    split
    · omega
    · next hlt =>
      have hrec := ih (a + 1) (nc + 1) (by omega) (by omega)
      rw [hs a hka] at hrec
      exact le_trans hrec (by omega)

/-- Before stabilization at time `k`, the scroll loop either breaks early or
reaches the stabilized region, stopping by attempt `k + 3`. -/
theorem scrollLoopAux_reach (h : Nat → Nat) (k : Nat)
    (hs : ∀ t, k ≤ t → h (t + 1) = h t) :
    ∀ fuel a nc, a ≤ k → nc ≤ 2 →
      scrollLoopAux h fuel a (h a) nc ≤ k + 3 := by
  intro fuel
  induction fuel with
  | zero =>
    intro a nc hak hnc
    simp only [scrollLoopAux]
    omega
  | succ n ih =>
    intro a nc hak hnc
    rcases Nat.eq_or_lt_of_le hak with heq | hlt
    · subst heq
      exact le_trans (scrollLoopAux_stable h a hs (n + 1) a nc le_rfl hnc) (by omega)
    · unfold scrollLoopAux
      dsimp only
      split
      · split
        · omega
        · next hn3 =>
          exact ih (a + 1) (nc + 1) (by omega) (by omega)
      · exact ih (a + 1) 0 (by omega) (by omega)

/-- C8: the scroll-to-load loop of `loadMoreContent` always terminates: it
performs at most 25 attempts over any height sequence, and once the page
height is unchanged from time `k` on, it stops within 3 attempts past `k`
(in particular, a never-growing page stops after exactly 3 attempts). -/
theorem C8_scroll_termination :
    (∀ h : Nat → Nat, scrollAttempts h ≤ 25) ∧
    (∀ (h : Nat → Nat) (k : Nat), (∀ t, k ≤ t → h (t + 1) = h t) →
      scrollAttempts h ≤ k + 3) := by
  constructor
  · intro h
    exact scrollLoopAux_le h 25 0 (h 0) 0
  · intro h k hs
    exact scrollLoopAux_reach h k hs 25 0 0 (Nat.zero_le k) (by omega)

/-- C8 witness: a constant-height page stops within 3 attempts and under the
hard cap. -/
theorem C8_scroll_termination_witness :
    scrollAttempts (fun _ => 7) ≤ 25 ∧ scrollAttempts (fun _ => 7) ≤ 0 + 3 :=
  ⟨C8_scroll_termination.1 (fun _ => 7),
   C8_scroll_termination.2 (fun _ => 7) 0 (fun _ _ => rfl)⟩

/-- Storing a batch of results never touches the record of a key that none
of them is stored under. -/
theorem storeFoldPreserves (now k : String) :
    ∀ (l : List ScrapedData) (st : Store),
      (∀ d ∈ l, d.competitor ≠ k) →
      (l.foldl (fun s d => storePut s d.competitor d now) st) k = st k := by
  intro l
  induction l with
  | nil => intro st _; rfl
  | cons d rest ih =>
    intro st hl
    simp only [List.foldl_cons]
    rw [ih _ (fun x hx => hl x (List.mem_cons_of_mem _ hx))]
    have hne : k ≠ d.competitor := fun hk => hl d (List.mem_cons_self _ _) hk.symm
    simp [storePut, hne]

/-- C5: when one source of the all-sources run fails, every success of every
other source still appears in the returned list, and (since stores happen
under each successful result's own competitor key) the previously persisted
record of the failing source is left untouched. -/
theorem C5_failure_isolation (pre post : List (String × Except String ScrapedData))
    (b e : String) (st : Store) (now : String) :
    (∀ nm d, (nm, Except.ok d) ∈ pre ++ post →
      d ∈ (handleScrapeAll (pre ++ (b, Except.error e) :: post) st now).1) ∧
    ((∀ nm d, (nm, Except.ok d) ∈ pre ++ post → d.competitor ≠ b) →
      (handleScrapeAll (pre ++ (b, Except.error e) :: post) st now).2 b = st b) := by
  constructor
  · intro nm d hmem
    have hout : (nm, Except.ok d) ∈ pre ++ (b, Except.error e) :: post := by
      rcases List.mem_append.mp hmem with hp | hp
      · exact List.mem_append_left _ hp
      · exact List.mem_append_right _ (List.mem_cons_of_mem _ hp)
    exact List.mem_filterMap.mpr ⟨(nm, Except.ok d), hout, rfl⟩
  · intro hne
    apply storeFoldPreserves
    intro d hd
    rcases List.mem_filterMap.mp hd with ⟨⟨nm, r⟩, hpr, hr⟩
    cases r with
    | error msg => exact absurd hr (by simp)
    | ok d2 =>
      have hd2 : d2 = d := by simpa using hr
      rcases List.mem_append.mp hpr with hp | hp
      · exact hd2 ▸ hne nm d2 (List.mem_append_left _ hp)
      · rcases List.mem_cons.mp hp with heq | hp
        · exact absurd heq (by simp)
        · exact hd2 ▸ hne nm d2 (List.mem_append_right _ hp)

/-- C5 witness: source A succeeds, source B fails, source C succeeds; the
successes of A and C are in the report and the stored record of B is
unchanged. -/
theorem C5_failure_isolation_witness :
    (⟨"stripe", [sampleUpdate], "t1"⟩ : ScrapedData) ∈
      (handleScrapeAll
        ([("stripe", Except.ok ⟨"stripe", [sampleUpdate], "t1"⟩)] ++
          ("vercel", Except.error "timeout") ::
          [("figma", Except.ok ⟨"figma", [sampleUpdateB], "t1"⟩)])
        (fun _ => none) "t2").1 ∧
    (handleScrapeAll
        ([("stripe", Except.ok ⟨"stripe", [sampleUpdate], "t1"⟩)] ++
          ("vercel", Except.error "timeout") ::
          [("figma", Except.ok ⟨"figma", [sampleUpdateB], "t1"⟩)])
        (fun _ => none) "t2").2 "vercel" = (fun _ => none : Store) "vercel" :=
  ⟨(C5_failure_isolation
      [("stripe", Except.ok ⟨"stripe", [sampleUpdate], "t1"⟩)]
      [("figma", Except.ok ⟨"figma", [sampleUpdateB], "t1"⟩)]
      "vercel" "timeout" (fun _ => none) "t2").1
      "stripe" ⟨"stripe", [sampleUpdate], "t1"⟩ (by simp),
   (C5_failure_isolation
      [("stripe", Except.ok ⟨"stripe", [sampleUpdate], "t1"⟩)]
      [("figma", Except.ok ⟨"figma", [sampleUpdateB], "t1"⟩)]
      "vercel" "timeout" (fun _ => none) "t2").2
      (by intro nm d hmem; rcases List.mem_append.mp hmem with hp | hp <;> simp_all)⟩

/-- Outcome of one company API call observed by `runDailyScraper`
(daily-scraper.js lines 89-134): a successful response carrying a count of
updates (with the elapsed milliseconds), or a thrown error message. -/
inductive DailyOutcome where
  | ok (updates : Nat) (duration : Nat)
  | fail (errMsg : String)
deriving DecidableEq, Repr

/-- Whether the outcome is a failure. -/
def DailyOutcome.isFail : DailyOutcome → Bool
  | DailyOutcome.ok _ _ => false
  | DailyOutcome.fail _ => true

/-- The fixed allow-list of daily-scraper.js line 84. -/
def supportedCompanies : List String :=
  ["vercel", "supabase", "figma", "notion", "gumroad"]

/-- One per-company entry of the results array of `runDailyScraper`. -/
structure CompanyResult where
  company : String
  success : Bool
  updates : Nat
  duration : Nat
  errMsg : Option String
deriving DecidableEq, Repr

/-- The entry pushed for one company (daily-scraper.js lines 106-129):
success records the update count and duration; failure records the error
message and zero duration (a missing updates field reads as 0). -/
def mkResult (c : String) : DailyOutcome → CompanyResult
  | DailyOutcome.ok u d => ⟨c, true, u, d, none⟩
  | DailyOutcome.fail e => ⟨c, false, 0, 0, some e⟩

/-- The results array built by the company loop of `runDailyScraper`:
exactly one entry per allow-listed company, in order. -/
def runResults (o : String → DailyOutcome) : List CompanyResult :=
  supportedCompanies.map (fun c => mkResult c (o c))

/-- The exit status of `runDailyScraper` (daily-scraper.js line 167):
1 when the failed entries are the whole results array, else 0. -/
def dailyExitCode (o : String → DailyOutcome) : Nat :=
  if ((runResults o).filter (fun r => !r.success)).length = (runResults o).length
  then 1 else 0

/-- One per-company record inside a scraping-log entry. -/
structure LogCompanyEntry where
  name : String
  success : Bool
  updates : Nat
  errMsg : Option String
deriving DecidableEq, Repr

/-- One entry of data/scraping-log.json, built by `logScrapingResults`
(daily-scraper.js lines 43-56). -/
structure LogEntry where
  timestamp : String
  totalCompanies : Nat
  successfulScrapes : Nat
  failedScrapes : Nat
  totalUpdates : Nat
  companies : List LogCompanyEntry
deriving DecidableEq, Repr

/-- `logScrapingResults`: the structured summary of one run. -/
def mkLogEntry (ts : String) (rs : List CompanyResult) : LogEntry :=
  ⟨ts, rs.length, (rs.filter (fun r => r.success)).length,
   (rs.filter (fun r => !r.success)).length,
   rs.foldl (fun s r => s + r.updates) 0,
   rs.map (fun r => ⟨r.company, r.success, r.updates, r.errMsg⟩)⟩

/-- The rolling log update (daily-scraper.js lines 70-71): prepend the new
entry and keep only the most recent 30. -/
def appendLog (oldLogs : List LogEntry) (entry : LogEntry) : List LogEntry :=
  (entry :: oldLogs).take 30

/-- C7: the batch entry point exits 1 exactly when every allow-listed source
failed and 0 exactly when at least one succeeded; one structured per-source
entry (success flag, update count, duration, error) is produced for every
source, and the run summary is recorded at the head of the log before the
exit. -/
theorem C7_exit_code (o : String → DailyOutcome) (ts : String)
    (oldLogs : List LogEntry) :
    (dailyExitCode o = 1 ↔ ∀ c ∈ supportedCompanies, (o c).isFail = true) ∧
    (dailyExitCode o = 0 ↔ ∃ c ∈ supportedCompanies, (o c).isFail = false) ∧
    (∀ c ∈ supportedCompanies, mkResult c (o c) ∈ runResults o) ∧
    ((mkLogEntry ts (runResults o)).companies.map (fun r => r.name) = supportedCompanies) ∧
    (appendLog oldLogs (mkLogEntry ts (runResults o))).head? =
      some (mkLogEntry ts (runResults o)) := by
  have key : ((runResults o).filter (fun r => !r.success)).length = (runResults o).length ↔
      ∀ c ∈ supportedCompanies, (o c).isFail = true := by
    rw [List.filter_length_eq_length]
    constructor
    · intro hall c hc
      have hr := hall (mkResult c (o c)) (List.mem_map_of_mem _ hc)
      cases ho : o c with
      | ok u d => rw [ho] at hr; simp [mkResult] at hr
      | fail e => simp [DailyOutcome.isFail]
    · intro hall r hr
      rcases List.mem_map.mp hr with ⟨c, hc, rfl⟩
      have hf := hall c hc
      cases ho : o c with
      | ok u d => rw [ho] at hf; simp [DailyOutcome.isFail] at hf
      | fail e => simp [mkResult]
  refine ⟨?_, ?_, ?_, ?_, ?_⟩
  · unfold dailyExitCode
    split
    · next hc => exact iff_of_true rfl (key.mp hc)
    · next hc => exact iff_of_false (by decide) (fun hall => hc (key.mpr hall))
  · unfold dailyExitCode
    split
    · next hc =>
      refine iff_of_false (by decide) ?_
      rintro ⟨c, hcmem, hcf⟩
      have := key.mp hc c hcmem
      simp [this] at hcf
    · next hc =>
      refine iff_of_true rfl ?_
      by_contra hno
      apply hc
      apply key.mpr
      intro c hcmem
      cases ho : o c with
      | ok u d => exact absurd ⟨c, hcmem, by simp [ho, DailyOutcome.isFail]⟩ hno
      | fail e => simp [DailyOutcome.isFail]
  · intro c hc
    exact List.mem_map_of_mem _ hc
  · show ((runResults o).map
        (fun r => (⟨r.company, r.success, r.updates, r.errMsg⟩ : LogCompanyEntry))).map
        (fun r => r.name) = supportedCompanies
    rw [runResults, List.map_map, List.map_map]
    conv_rhs => rw [← List.map_id supportedCompanies]
    apply List.map_congr_left
    intro c _
    simp only [Function.comp_apply, id_eq]
    cases o c <;> rfl
  · rfl

/-- A concrete daily-run outcome map: one success, the rest failures. -/
def sampleOutcome : String → DailyOutcome :=
  fun c => if c = "vercel" then DailyOutcome.ok 3 100 else DailyOutcome.fail "boom"

/-- C7 witness: with one successful source the exit code is 0, and the
structured entry of a failing source is present in the results. -/
theorem C7_exit_code_witness :
    dailyExitCode sampleOutcome = 0 ∧
      mkResult "figma" (sampleOutcome "figma") ∈ runResults sampleOutcome :=
  ⟨(C7_exit_code sampleOutcome "2026-01-01T06:00:00Z" []).2.1.mpr
      ⟨"vercel", by decide, by decide⟩,
   (C7_exit_code sampleOutcome "2026-01-01T06:00:00Z" []).2.2.1 "figma" (by decide)⟩
